import Mathlib

/-!
Shallow embedding of `src/app.py` (SPY options size checker).

Numeric values are modelled as exact rationals (`ℚ`).  Python's
`round(x, 2)` (round to nearest cent, ties to even) is modelled by
`round2` below, and `math.floor` by `Int.floor`.  Contract counts are
integers (`ℤ`).  The result dictionary returned by `calc` is modelled by
the structure `Plan`; the transient `diff_from_target` entry (popped
before the dictionary is returned) is carried separately as the second
component of a pair during the search.
-/

/-- `MIN_TICK = 0.01`, the SPY options tick size. -/
def MIN_TICK : ℚ := 1/100

/-- `INVEST_TIERS`: (ceiling, percent) pairs; `none` is the float `inf` ceiling. -/
def INVEST_TIERS : List (Option ℚ × ℚ) :=
  [(some 25000, 35), (some 100000, 25), (some 300000, 15), (none, 8)]

/-- `RISK_TIERS`: (ceiling, percent) pairs; `none` is the float `inf` ceiling. -/
def RISK_TIERS : List (Option ℚ × ℚ) :=
  [(some 25000, 2), (some 100000, 1.8), (some 300000, 1.5), (none, 1.2)]

/-- `SL_TRADE1_BASE = 30.0`. -/
def SL_TRADE1_BASE : ℚ := 30

/-- `SL_TRADE2_BASE = 24.0`. -/
def SL_TRADE2_BASE : ℚ := 24

/-- `TRADE2_TIGHTENING_RULES`: (upper, tighten) pairs; `none` is `inf`. -/
def TRADE2_TIGHTENING_RULES : List (Option ℚ × ℚ) :=
  [(some 0.25, 4), (some 0.35, 3), (some 0.5, 2), (none, 0)]

/-- `SL_TRADE2_MIN = 15.0`. -/
def SL_TRADE2_MIN : ℚ := 15

/-- `SL_TRADE2_MAX = 26.0`. -/
def SL_TRADE2_MAX : ℚ := 26

/-- The per-tier test `value <= max_val` used by the loops in
`tier_lookup` and `trade2_dynamic_sl`; a `none` ceiling (`inf`) matches
everything. -/
def tier_match (value : ℚ) : Option ℚ × ℚ → Bool
  | (some c, _) => decide (value ≤ c)
  | (none, _) => true

/-- `tier_lookup(value, tiers)`: percent of the first tier whose ceiling is
`>= value`; falls back to the last tier's percent. -/
def tier_lookup (value : ℚ) (tiers : List (Option ℚ × ℚ)) : ℚ :=
  match tiers.find? (tier_match value) with
  | some (_, pct) => pct
  | none => ((tiers.getLast?).map Prod.snd).getD 0

/-- `invest_percent(balance, trade_number)`: trade #1 gets the full deploy %,
trade #2 gets half. -/
def invest_percent (balance : ℚ) (trade_number : ℤ) : ℚ :=
  let base := tier_lookup balance INVEST_TIERS
  if trade_number = 1 then base else base / 2

/-- `base_risk_percent(balance)`: base risk % from `RISK_TIERS`. -/
def base_risk_percent (balance : ℚ) : ℚ :=
  tier_lookup balance RISK_TIERS

/-- `trade2_dynamic_sl(entry_price)`: base 24 minus the tightening of the
first matching price bracket, clamped into `[15, 26]`. -/
def trade2_dynamic_sl (entry_price : ℚ) : ℚ :=
  let extra : ℚ :=
    match TRADE2_TIGHTENING_RULES.find? (tier_match entry_price) with
    | some (_, tighten) => tighten
    | none => 0
  let sl := SL_TRADE2_BASE - extra
  max SL_TRADE2_MIN (min SL_TRADE2_MAX sl)

/-- `compute_tp_percent_for_target_account_gain`: required TP % on the
premium so that the net dollar profit (after estimated round-trip fees)
equals `balance * target_account_gain_pct / 100`; `none` on degenerate
inputs. -/
def compute_tp_percent_for_target_account_gain
    (balance entry_price : ℚ) (contracts : ℤ)
    (target_account_gain_pct fee_per_contract : ℚ) : Option ℚ :=
  if contracts ≤ 0 ∨ balance ≤ 0 ∨ entry_price ≤ 0 then
    none
  else
    let profit_goal_net := balance * (target_account_gain_pct / 100)
    let total_fees_est := fee_per_contract * (contracts : ℚ) * 2
    let profit_goal_gross := profit_goal_net + total_fees_est
    let denom := entry_price * 100 * (contracts : ℚ)
    if denom ≤ 0 then none
    else some (profit_goal_gross / denom * 100)

/-- Round a rational to the nearest integer, ties to even (the rounding
used by Python's `round`). -/
def round_half_even (q : ℚ) : ℤ :=
  let f := ⌊q⌋
  let r := q - (f : ℚ)
  if r < 1/2 then f
  else if 1/2 < r then f + 1
  else if f % 2 = 0 then f else f + 1

/-- Python's `round(x, 2)`: round to the nearest cent, ties to even. -/
def round2 (q : ℚ) : ℚ :=
  (round_half_even (q * 100) : ℚ) / 100

/-- The result record returned by `calc` (the keys of the Python dict). -/
structure Plan where
  contracts : ℤ
  inv_pct : ℚ
  rsk_pct : ℚ
  sl_pct : ℚ
  tp_pct_effective : ℚ
  pos_cost : ℚ
  tp_price : ℚ
  sl_price : ℚ
  profit_tp_gross : ℚ
  loss_sl : ℚ
  total_fees_est : ℚ
  net_profit_tp : ℚ
  acct_gain_tp_gross : ℚ
  acct_loss_sl_gross : ℚ
  acct_gain_tp_net : ℚ
  max_by_invest : ℤ
  max_by_risk : ℤ
  inv_budget : ℚ
  rsk_budget : ℚ
  cost_per_contract : ℚ
  deriving DecidableEq, Repr

/-- The `rsk_pct` computed by `calc`: trade #2 uses half the base risk %. -/
def rsk_pct_of (balance : ℚ) (trade_number : ℤ) : ℚ :=
  if trade_number = 1 then base_risk_percent balance
  else base_risk_percent balance / 2

/-- The `sl_pct` computed by `calc`: fixed 30 for trade #1, dynamic for #2. -/
def sl_pct_of (entry_price : ℚ) (trade_number : ℤ) : ℚ :=
  if trade_number = 1 then SL_TRADE1_BASE else trade2_dynamic_sl entry_price

/-- `sl_price = entry_price * (1 - sl_pct / 100)` as computed by `calc`. -/
def sl_price_of (entry_price : ℚ) (trade_number : ℤ) : ℚ :=
  entry_price * (1 - sl_pct_of entry_price trade_number / 100)

/-- `cost_per_contract = entry_price * 100` as computed by `calc`. -/
def cost_per_contract_of (entry_price : ℚ) : ℚ :=
  entry_price * 100

/-- `loss_per_contract = (entry_price - sl_price) * 100` as computed by `calc`. -/
def loss_per_contract_of (entry_price : ℚ) (trade_number : ℤ) : ℚ :=
  (entry_price - sl_price_of entry_price trade_number) * 100

/-- `inv_budget = balance * inv_pct / 100` as computed by `calc`. -/
def inv_budget_of (balance : ℚ) (trade_number : ℤ) : ℚ :=
  balance * invest_percent balance trade_number / 100

/-- `rsk_budget = balance * rsk_pct / 100` as computed by `calc`. -/
def rsk_budget_of (balance : ℚ) (trade_number : ℤ) : ℚ :=
  balance * rsk_pct_of balance trade_number / 100

/-- `max_by_invest` as computed by `calc`. -/
def max_by_invest_of (balance entry_price : ℚ) (trade_number : ℤ) : ℤ :=
  if cost_per_contract_of entry_price > 0 then
    ⌊inv_budget_of balance trade_number / cost_per_contract_of entry_price⌋
  else 0

/-- `max_by_risk` as computed by `calc`. -/
def max_by_risk_of (balance entry_price : ℚ) (trade_number : ℤ) : ℤ :=
  if loss_per_contract_of entry_price trade_number > 0 then
    ⌊rsk_budget_of balance trade_number / loss_per_contract_of entry_price trade_number⌋
  else 0

/-- `max_contracts = max(0, min(max_by_invest, max_by_risk))` as computed
by `calc`. -/
def max_contracts_of (balance entry_price : ℚ) (trade_number : ℤ) : ℤ :=
  max 0 (min (max_by_invest_of balance entry_price trade_number)
             (max_by_risk_of balance entry_price trade_number))

/-- The "zero" plan dict that `calc` returns when `max_contracts == 0`
(and, with identical contents, when the search finds no candidate). -/
def zeroPlan (balance entry_price : ℚ) (trade_number : ℤ) : Plan where
  contracts := 0
  inv_pct := invest_percent balance trade_number
  rsk_pct := rsk_pct_of balance trade_number
  sl_pct := sl_pct_of entry_price trade_number
  tp_pct_effective := 0
  pos_cost := 0
  tp_price := entry_price
  sl_price := sl_price_of entry_price trade_number
  profit_tp_gross := 0
  loss_sl := 0
  total_fees_est := 0
  net_profit_tp := 0
  acct_gain_tp_gross := 0
  acct_loss_sl_gross := 0
  acct_gain_tp_net := 0
  max_by_invest := max_by_invest_of balance entry_price trade_number
  max_by_risk := max_by_risk_of balance entry_price trade_number
  inv_budget := inv_budget_of balance trade_number
  rsk_budget := rsk_budget_of balance trade_number
  cost_per_contract := cost_per_contract_of entry_price

/-- One iteration body of `calc`'s search loop: the candidate dict built
for contract count `n`, paired with its `diff_from_target`; `none` when
`compute_tp_percent_for_target_account_gain` returns `None` and the loop
`continue`s. -/
def candidate (balance entry_price : ℚ) (trade_number : ℤ)
    (target_gain_pct fee_per_contract : ℚ) (n : ℤ) : Option (Plan × ℚ) :=
  match compute_tp_percent_for_target_account_gain
      balance entry_price n target_gain_pct fee_per_contract with
  | none => none
  | some tp_pct_raw =>
    let tp_price_unrounded := entry_price * (1 + tp_pct_raw / 100)
    let tp_price_rounded := round2 tp_price_unrounded
    let tp_price :=
      if tp_price_rounded ≤ entry_price then round2 (entry_price + MIN_TICK)
      else tp_price_rounded
    let tp_pct_effective :=
      if entry_price > 0 then (tp_price / entry_price - 1) * 100 else 0
    let pos_cost := (n : ℚ) * cost_per_contract_of entry_price
    let profit_tp_gross := (tp_price - entry_price) * 100 * (n : ℚ)
    let loss_sl :=
      (entry_price - sl_price_of entry_price trade_number) * 100 * (n : ℚ)
    let total_fees_est := fee_per_contract * (n : ℚ) * 2
    let net_profit_tp := profit_tp_gross - total_fees_est
    let acct :=
      if balance > 0 then
        (profit_tp_gross / balance * 100, loss_sl / balance * 100,
          net_profit_tp / balance * 100)
      else (0, 0, 0)
    let diff := |acct.2.2 - target_gain_pct|
    some ({ contracts := n
            inv_pct := invest_percent balance trade_number
            rsk_pct := rsk_pct_of balance trade_number
            sl_pct := sl_pct_of entry_price trade_number
            tp_pct_effective := tp_pct_effective
            pos_cost := pos_cost
            tp_price := tp_price
            sl_price := sl_price_of entry_price trade_number
            profit_tp_gross := profit_tp_gross
            loss_sl := loss_sl
            total_fees_est := total_fees_est
            net_profit_tp := net_profit_tp
            acct_gain_tp_gross := acct.1
            acct_loss_sl_gross := acct.2.1
            acct_gain_tp_net := acct.2.2
            max_by_invest := max_by_invest_of balance entry_price trade_number
            max_by_risk := max_by_risk_of balance entry_price trade_number
            inv_budget := inv_budget_of balance trade_number
            rsk_budget := rsk_budget_of balance trade_number
            cost_per_contract := cost_per_contract_of entry_price }, diff)

/-- The `best`-tracking step of `calc`'s search loop: a candidate replaces
the current best only when its diff is strictly smaller. -/
def searchStep (cands : ℤ → Option (Plan × ℚ))
    (best : Option (Plan × ℚ)) (n : ℤ) : Option (Plan × ℚ) :=
  match cands n with
  | none => best
  | some (p, d) =>
    match best with
    | none => some (p, d)
    | some (bp, bd) => if d < bd then some (p, d) else some (bp, bd)

/-- Python's `range(1, m + 1)` as a list of integers. -/
def contractRange (m : ℤ) : List ℤ :=
  (List.range m.toNat).map (fun i : ℕ => (i : ℤ) + 1)

/-- `calc`'s search over all contract counts `1 .. max_contracts`. -/
def searchLoop (balance entry_price : ℚ) (trade_number : ℤ)
    (target_gain_pct fee_per_contract : ℚ) : Option (Plan × ℚ) :=
  (contractRange (max_contracts_of balance entry_price trade_number)).foldl
    (searchStep (candidate balance entry_price trade_number
      target_gain_pct fee_per_contract))
    none

/-- `calc(balance, entry_price, trade_number, target_gain_pct,
fee_per_contract)`: core sizing + TP/SL math of `src/app.py`. -/
def «calc» (balance entry_price : ℚ) (trade_number : ℤ)
    (target_gain_pct fee_per_contract : ℚ) : Plan :=
  if max_contracts_of balance entry_price trade_number = 0 then
    zeroPlan balance entry_price trade_number
  else
    match searchLoop balance entry_price trade_number
        target_gain_pct fee_per_contract with
    | none => zeroPlan balance entry_price trade_number
    | some (best, _) => best

/-- Spec-side restatement of the contract bound, written from the words of
the claim (spec §4.4): `maxByDeploy = floor(deployBudget / costPerContract)`
or 0 if `costPerContract <= 0`; `maxByRisk = floor(riskBudget /
lossPerContract)` with `lossPerContract = (entryPrice - stopPrice) *
multiplier`, or 0 if `lossPerContract <= 0`; result
`max(0, min(maxByDeploy, maxByRisk))`. -/
def max_contracts_spec (balance entry_price : ℚ) (trade_number : ℤ) : ℤ :=
  let costPerContract := entry_price * 100
  let lossPerContract := (entry_price - sl_price_of entry_price trade_number) * 100
  let deployBudget := balance * invest_percent balance trade_number / 100
  let riskBudget := balance * rsk_pct_of balance trade_number / 100
  let maxByDeploy : ℤ :=
    if costPerContract ≤ 0 then 0 else ⌊deployBudget / costPerContract⌋
  let maxByRisk : ℤ :=
    if lossPerContract ≤ 0 then 0 else ⌊riskBudget / lossPerContract⌋
  max 0 (min maxByDeploy maxByRisk)

/-- Spec-side restatement of the secondary stop-loss policy, written from
the words of the claim: base 24 minus the tightening of the first price
bracket whose ceiling is `>= entry_price` among (0.25, 4), (0.35, 3),
(0.50, 2), (inf, 0), clamped into [15, 26]. -/
def trade2_sl_spec (entry_price : ℚ) : ℚ :=
  let tightening : ℚ :=
    if entry_price ≤ 0.25 then 4
    else if entry_price ≤ 0.35 then 3
    else if entry_price ≤ 0.5 then 2
    else 0
  max 15 (min 26 (24 - tightening))

/-! ### Helper lemmas -/

theorem round_half_even_bounds (q : ℚ) :
    q - 1/2 ≤ (round_half_even q : ℚ) ∧ (round_half_even q : ℚ) ≤ q + 1/2 := by
  simp only [round_half_even]
  have h1 := Int.floor_le q
  have h2 := Int.lt_floor_add_one q
  split_ifs with ha hb hc <;> constructor <;> push_cast at * <;> linarith

theorem round2_ge (q : ℚ) : q - 1/200 ≤ round2 q := by
  unfold round2
  rw [le_div_iff₀ (by norm_num : (0:ℚ) < 100)]
  linarith [(round_half_even_bounds (q * 100)).1]

theorem round2_grid (q : ℚ) : ∃ z : ℤ, round2 q = (z : ℚ) / 100 :=
  ⟨round_half_even (q * 100), rfl⟩

theorem grid_step {x y : ℚ} {k z : ℤ} (hx : x = (k : ℚ) / 100)
    (hy : y = (z : ℚ) / 100) (h : x < y) : x + 1/100 ≤ y := by
  subst hx hy
  have hkz : (k : ℚ) < (z : ℚ) := by linarith
  have hkz' : k < z := by exact_mod_cast hkz
  have : (k : ℚ) + 1 ≤ (z : ℚ) := by exact_mod_cast hkz'
  linarith

theorem compute_tp_eq {balance entry_price : ℚ} {n : ℤ} (tg fee : ℚ)
    (hb : 0 < balance) (he : 0 < entry_price) (hn : 1 ≤ n) :
    compute_tp_percent_for_target_account_gain balance entry_price n tg fee =
      some ((balance * (tg / 100) + fee * (n : ℚ) * 2) /
        (entry_price * 100 * (n : ℚ)) * 100) := by
  have hnq : (0 : ℚ) < (n : ℚ) := by exact_mod_cast (by omega : (0:ℤ) < n)
  have h1 : ¬(n ≤ 0 ∨ balance ≤ 0 ∨ entry_price ≤ 0) := by
    push_neg
    exact ⟨by omega, hb, he⟩
  have h2 : ¬(entry_price * 100 * (n : ℚ) ≤ 0) := by
    push_neg
    positivity
  simp only [compute_tp_percent_for_target_account_gain]
  rw [if_neg h1, if_neg h2]

theorem compute_tp_pos {balance entry_price : ℚ} {n : ℤ} {tg fee v : ℚ}
    (h : compute_tp_percent_for_target_account_gain balance entry_price n tg fee
      = some v) :
    0 < balance ∧ 0 < entry_price ∧ 1 ≤ n := by
  by_cases h1 : n ≤ 0 ∨ balance ≤ 0 ∨ entry_price ≤ 0
  · simp [compute_tp_percent_for_target_account_gain, h1] at h
  · push_neg at h1
    exact ⟨h1.2.1, h1.2.2, by omega⟩

theorem candidate_props {b e : ℚ} {t : ℤ} {tg fee : ℚ} {n : ℤ} {p : Plan} {d : ℚ}
    (h : candidate b e t tg fee n = some (p, d)) :
    p.contracts = n ∧ d = |p.acct_gain_tp_net - tg| ∧
    p.total_fees_est = fee * (n : ℚ) * 2 ∧
    p.net_profit_tp = p.profit_tp_gross - p.total_fees_est ∧
    e < p.tp_price ∧ (∃ z : ℤ, p.tp_price = (z : ℚ) / 100) ∧
    p.max_by_invest = max_by_invest_of b e t ∧
    p.max_by_risk = max_by_risk_of b e t ∧
    0 < b ∧ 0 < e ∧ 1 ≤ n := by
  unfold candidate at h
  cases hctp : compute_tp_percent_for_target_account_gain b e n tg fee with
  | none => rw [hctp] at h; exact absurd h (by simp)
  | some v =>
    obtain ⟨hb, he, hn⟩ := compute_tp_pos hctp
    rw [hctp] at h
    simp only [Option.some.injEq, Prod.mk.injEq] at h
    obtain ⟨hp, hd⟩ := h
    subst hp
    subst hd
    refine ⟨rfl, rfl, rfl, rfl, ?_, ?_, rfl, rfl, hb, he, hn⟩
    · by_cases hbr : round2 (e * (1 + v / 100)) ≤ e
      · simp only [hbr, if_true]
        have hlo := round2_ge (e + MIN_TICK)
        have hmt : MIN_TICK = 1/100 := rfl
        linarith
      · simp only [hbr, if_false]
        push_neg at hbr
        exact hbr
    · by_cases hbr : round2 (e * (1 + v / 100)) ≤ e
      · simp only [hbr, if_true]
        exact round2_grid _
      · simp only [hbr, if_false]
        exact round2_grid _

theorem candidate_isSome {b e : ℚ} (t : ℤ) {tg fee : ℚ} {n : ℤ}
    (hb : 0 < b) (he : 0 < e) (hn : 1 ≤ n) :
    ∃ p : Plan, candidate b e t tg fee n = some (p, |p.acct_gain_tp_net - tg|) := by
  unfold candidate
  rw [compute_tp_eq tg fee hb he hn]
  exact ⟨_, rfl⟩

theorem searchFold_acc_some (cands : ℤ → Option (Plan × ℚ)) :
    ∀ (L : List ℤ), L.Pairwise (· < ·) → ∀ (bp : Plan) (bd : ℚ),
    ∃ rp rd, L.foldl (searchStep cands) (some (bp, bd)) = some (rp, rd) ∧
      rd ≤ bd ∧
      (∀ k ∈ L, ∀ q e1, cands k = some (q, e1) → rd ≤ e1) ∧
      ((rp = bp ∧ rd = bd) ∨
        (rd < bd ∧ ∃ n ∈ L, cands n = some (rp, rd) ∧
          ∀ m ∈ L, m < n → ∀ q e1, cands m = some (q, e1) → rd < e1)) := by
  intro L
  induction L with
  | nil =>
    intro _ bp bd
    exact ⟨bp, bd, by simp, le_rfl, by simp, Or.inl ⟨rfl, rfl⟩⟩
  | cons a L ih =>
    intro hpw bp bd
    rw [List.pairwise_cons] at hpw
    obtain ⟨ha, hpw'⟩ := hpw
    rw [List.foldl_cons]
    cases hca : cands a with
    | none =>
      have hstep : searchStep cands (some (bp, bd)) a = some (bp, bd) := by
        simp [searchStep, hca]
      rw [hstep]
      obtain ⟨rp, rd, hfold, hle, hmin, hor⟩ := ih hpw' bp bd
      refine ⟨rp, rd, hfold, hle, ?_, ?_⟩
      · intro k hk q e1 hq
        rcases List.mem_cons.mp hk with hk | hk
        · subst hk; rw [hca] at hq; exact absurd hq (by simp)
        · exact hmin k hk q e1 hq
      · rcases hor with hor | ⟨hlt, n, hn, hcn, hbefore⟩
        · exact Or.inl hor
        · refine Or.inr ⟨hlt, n, List.mem_cons_of_mem a hn, hcn, ?_⟩
          intro m hm hmn q e1 hq
          rcases List.mem_cons.mp hm with hm | hm
          · subst hm; rw [hca] at hq; exact absurd hq (by simp)
          · exact hbefore m hm hmn q e1 hq
    | some qe =>
      obtain ⟨q0, e0⟩ := qe
      by_cases hlt : e0 < bd
      · have hstep : searchStep cands (some (bp, bd)) a = some (q0, e0) := by
          simp [searchStep, hca, hlt]
        rw [hstep]
        obtain ⟨rp, rd, hfold, hle, hmin, hor⟩ := ih hpw' q0 e0
        refine ⟨rp, rd, hfold, le_of_lt (lt_of_le_of_lt hle hlt), ?_, ?_⟩
        · intro k hk q e1 hq
          rcases List.mem_cons.mp hk with hk | hk
          · subst hk; rw [hca] at hq
            simp only [Option.some.injEq, Prod.mk.injEq] at hq
            exact hq.2 ▸ hle
          · exact hmin k hk q e1 hq
        · rcases hor with ⟨hrp, hrd⟩ | ⟨hlt', n, hn, hcn, hbefore⟩
          · subst hrp; subst hrd
            refine Or.inr ⟨hlt, a, List.mem_cons_self a L, hca, ?_⟩
            intro m hm hmn q e1 hq
            rcases List.mem_cons.mp hm with hm | hm
            · subst hm; omega
            · exact absurd (ha m hm) (by omega)
          · refine Or.inr ⟨lt_trans hlt' hlt, n, List.mem_cons_of_mem a hn, hcn, ?_⟩
            intro m hm hmn q e1 hq
            rcases List.mem_cons.mp hm with hm | hm
            · subst hm; rw [hca] at hq
              simp only [Option.some.injEq, Prod.mk.injEq] at hq
              exact hq.2 ▸ hlt'
            · exact hbefore m hm hmn q e1 hq
      · have hstep : searchStep cands (some (bp, bd)) a = some (bp, bd) := by
          simp [searchStep, hca, hlt]
        rw [hstep]
        obtain ⟨rp, rd, hfold, hle, hmin, hor⟩ := ih hpw' bp bd
        push_neg at hlt
        refine ⟨rp, rd, hfold, hle, ?_, ?_⟩
        · intro k hk q e1 hq
          rcases List.mem_cons.mp hk with hk | hk
          · subst hk; rw [hca] at hq
            simp only [Option.some.injEq, Prod.mk.injEq] at hq
            exact hq.2 ▸ le_trans hle hlt
          · exact hmin k hk q e1 hq
        · rcases hor with hor | ⟨hlt', n, hn, hcn, hbefore⟩
          · exact Or.inl hor
          · refine Or.inr ⟨hlt', n, List.mem_cons_of_mem a hn, hcn, ?_⟩
            intro m hm hmn q e1 hq
            rcases List.mem_cons.mp hm with hm | hm
            · subst hm; rw [hca] at hq
              simp only [Option.some.injEq, Prod.mk.injEq] at hq
              exact hq.2 ▸ lt_of_lt_of_le hlt' hlt
            · exact hbefore m hm hmn q e1 hq

theorem searchFold_some (cands : ℤ → Option (Plan × ℚ)) :
    ∀ (L : List ℤ), L.Pairwise (· < ·) → ∀ (rp : Plan) (rd : ℚ),
    L.foldl (searchStep cands) none = some (rp, rd) →
    ∃ n ∈ L, cands n = some (rp, rd) ∧
      (∀ k ∈ L, ∀ q e1, cands k = some (q, e1) → rd ≤ e1) ∧
      (∀ m ∈ L, m < n → ∀ q e1, cands m = some (q, e1) → rd < e1) := by
  intro L
  induction L with
  | nil => intro _ rp rd h; exact absurd h (by simp)
  | cons a L ih =>
    intro hpw rp rd h
    rw [List.pairwise_cons] at hpw
    obtain ⟨ha, hpw'⟩ := hpw
    rw [List.foldl_cons] at h
    cases hca : cands a with
    | none =>
      rw [show searchStep cands none a = none by simp [searchStep, hca]] at h
      obtain ⟨n, hn, hcn, hmin, hbefore⟩ := ih hpw' rp rd h
      refine ⟨n, List.mem_cons_of_mem a hn, hcn, ?_, ?_⟩
      · intro k hk q e1 hq
        rcases List.mem_cons.mp hk with hk | hk
        · subst hk; rw [hca] at hq; exact absurd hq (by simp)
        · exact hmin k hk q e1 hq
      · intro m hm hmn q e1 hq
        rcases List.mem_cons.mp hm with hm | hm
        · subst hm; rw [hca] at hq; exact absurd hq (by simp)
        · exact hbefore m hm hmn q e1 hq
    | some qe =>
      obtain ⟨q0, e0⟩ := qe
      rw [show searchStep cands none a = some (q0, e0) by simp [searchStep, hca]] at h
      obtain ⟨rp', rd', hfold, hle, hmin, hor⟩ := searchFold_acc_some cands L hpw' q0 e0
      rw [hfold] at h
      simp only [Option.some.injEq, Prod.mk.injEq] at h
      obtain ⟨hrp, hrd⟩ := h
      subst hrp
      subst hrd
      rcases hor with ⟨hrp, hrd⟩ | ⟨hlt', n, hn, hcn, hbefore⟩
      · subst hrp; subst hrd
        refine ⟨a, List.mem_cons_self a L, hca, ?_, ?_⟩
        · intro k hk q e1 hq
          rcases List.mem_cons.mp hk with hk | hk
          · subst hk; rw [hca] at hq
            simp only [Option.some.injEq, Prod.mk.injEq] at hq
            exact hq.2 ▸ le_rfl
          · exact hmin k hk q e1 hq
        · intro m hm hmn q e1 hq
          rcases List.mem_cons.mp hm with hm | hm
          · subst hm; omega
          · exact absurd (ha m hm) (by omega)
      · refine ⟨n, List.mem_cons_of_mem a hn, hcn, ?_, ?_⟩
        · intro k hk q e1 hq
          rcases List.mem_cons.mp hk with hk | hk
          · subst hk; rw [hca] at hq
            simp only [Option.some.injEq, Prod.mk.injEq] at hq
            exact hq.2 ▸ le_of_lt hlt'
          · exact hmin k hk q e1 hq
        · intro m hm hmn q e1 hq
          rcases List.mem_cons.mp hm with hm | hm
          · subst hm; rw [hca] at hq
            simp only [Option.some.injEq, Prod.mk.injEq] at hq
            exact hq.2 ▸ hlt'
          · exact hbefore m hm hmn q e1 hq

theorem mem_contractRange {m n : ℤ} : n ∈ contractRange m ↔ 1 ≤ n ∧ n ≤ m := by
  simp only [contractRange, List.mem_map, List.mem_range]
  constructor
  · rintro ⟨i, hi, rfl⟩
    omega
  · intro h
    exact ⟨(n - 1).toNat, by omega, by omega⟩

theorem pairwise_contractRange (m : ℤ) : (contractRange m).Pairwise (· < ·) := by
  unfold contractRange
  refine List.Pairwise.map _ (fun a b hab => ?_) (List.pairwise_lt_range _)
  show (a : ℤ) + 1 < (b : ℤ) + 1
  omega

theorem zeroPlan_contracts (b e : ℚ) (t : ℤ) : (zeroPlan b e t).contracts = 0 := rfl

theorem max_zero_ne {x : ℤ} (h : max 0 x ≠ 0) : max 0 x = x ∧ 1 ≤ x := by
  rcases le_total x 0 with h1 | h1
  · rw [max_eq_left h1] at h
    exact absurd rfl h
  · rw [max_eq_right h1] at h ⊢
    exact ⟨rfl, by omega⟩

theorem calc_branch {b e : ℚ} {t : ℤ} {tg fee : ℚ}
    (h : 0 < («calc» b e t tg fee).contracts) :
    max_contracts_of b e t ≠ 0 ∧
    ∃ p d, searchLoop b e t tg fee = some (p, d) ∧ «calc» b e t tg fee = p := by
  by_cases hm : max_contracts_of b e t = 0
  · have hz : «calc» b e t tg fee = zeroPlan b e t := by
      unfold «calc»
      rw [if_pos hm]
    rw [hz, zeroPlan_contracts] at h
    exact absurd h (by norm_num)
  · refine ⟨hm, ?_⟩
    cases hs : searchLoop b e t tg fee with
    | none =>
      have hz : «calc» b e t tg fee = zeroPlan b e t := by
        unfold «calc»
        rw [if_neg hm, hs]
      rw [hz, zeroPlan_contracts] at h
      exact absurd h (by norm_num)
    | some pd =>
      obtain ⟨p, d⟩ := pd
      refine ⟨p, d, rfl, ?_⟩
      unfold «calc»
      rw [if_neg hm, hs]

theorem tier_lookup_INVEST (v : ℚ) : tier_lookup v INVEST_TIERS =
    if v ≤ 25000 then 35
    else if v ≤ 100000 then 25
    else if v ≤ 300000 then 15
    else 8 := by
  simp only [tier_lookup, INVEST_TIERS, List.find?, tier_match]
  by_cases h1 : v ≤ (25000 : ℚ) <;>
    by_cases h2 : v ≤ (100000 : ℚ) <;>
      by_cases h3 : v ≤ (300000 : ℚ) <;>
        simp [h1, h2, h3]

theorem tier_lookup_RISK (v : ℚ) : tier_lookup v RISK_TIERS =
    if v ≤ 25000 then 2
    else if v ≤ 100000 then 1.8
    else if v ≤ 300000 then 1.5
    else 1.2 := by
  simp only [tier_lookup, RISK_TIERS, List.find?, tier_match]
  by_cases h1 : v ≤ (25000 : ℚ) <;>
    by_cases h2 : v ≤ (100000 : ℚ) <;>
      by_cases h3 : v ≤ (300000 : ℚ) <;>
        simp [h1, h2, h3]

/-! ### Claim theorems -/

/-- C2: for every input, `calc` computes the contract bound as
`max_contracts = max(0, min(maxByDeploy, maxByRisk))` with
`maxByDeploy = floor(deployBudget / costPerContract)` (0 when
`costPerContract <= 0`, `costPerContract = entry_price * 100`) and
`maxByRisk = floor(riskBudget / lossPerContract)` (0 when
`lossPerContract <= 0`, `lossPerContract = (entry_price - sl_price) * 100`). -/
theorem max_contracts_formula (balance entry_price : ℚ) (trade_number : ℤ) :
    max_contracts_of balance entry_price trade_number =
      max_contracts_spec balance entry_price trade_number := by
  have flip : ∀ (x : ℚ) (v : ℤ), (if x > 0 then v else 0) = (if x ≤ 0 then 0 else v) := by
    intro x v
    split_ifs with h1 h2 <;> first | rfl | linarith
  simp only [max_contracts_of, max_contracts_spec, max_by_invest_of,
    max_by_risk_of, inv_budget_of, rsk_budget_of, cost_per_contract_of,
    loss_per_contract_of]
  rw [flip, flip]

/-- C5: the stop-loss percentage used by `calc` is the constant 30 when
`trade_number = 1`; for `trade_number = 2` it is the base 24 minus the
tightening of the first price bracket whose ceiling is `>= entry_price`
((0.25, 4), (0.35, 3), (0.50, 2), (inf, 0)), clamped into [15, 26]. -/
theorem sl_policy (entry_price : ℚ) (h : 0 < entry_price) :
    sl_pct_of entry_price 1 = 30 ∧
    sl_pct_of entry_price 2 = trade2_sl_spec entry_price := by
  constructor
  · simp [sl_pct_of, SL_TRADE1_BASE]
  · simp only [sl_pct_of, trade2_dynamic_sl, TRADE2_TIGHTENING_RULES,
      tier_match, List.find?, trade2_sl_spec, SL_TRADE2_BASE, SL_TRADE2_MIN,
      SL_TRADE2_MAX]
    by_cases h1 : entry_price ≤ (0.25 : ℚ) <;>
      by_cases h2 : entry_price ≤ (0.35 : ℚ) <;>
        by_cases h3 : entry_price ≤ (0.5 : ℚ) <;>
          simp [h1, h2, h3]

/-- C5 witness: at `entry_price = 0.25` the policy gives 30 for trade #1 and
the spec-side bracket value for trade #2. -/
theorem sl_policy_witness :
    (0 : ℚ) < 0.25 ∧
    (sl_pct_of 0.25 1 = 30 ∧ sl_pct_of 0.25 2 = trade2_sl_spec 0.25) :=
  ⟨by norm_num, sl_policy 0.25 (by norm_num)⟩

/-- C7: for every balance, the deploy percent for trade slot 2 is half the
slot-1 deploy percent, and the risk percent used by `calc` for slot 2 is
half the base risk percent. -/
theorem secondary_halving (balance : ℚ) :
    invest_percent balance 2 = invest_percent balance 1 / 2 ∧
    rsk_pct_of balance 2 = base_risk_percent balance / 2 := by
  constructor <;> simp [invest_percent, rsk_pct_of]

/-- C9: deploy and risk percentages are non-increasing in balance: for
`0 <= a < b`, `invest_percent a slot >= invest_percent b slot` for either
trade slot and `base_risk_percent a >= base_risk_percent b`. -/
theorem tier_monotone (a b : ℚ) (ha : 0 ≤ a) (hab : a < b) :
    (∀ t : ℤ, invest_percent b t ≤ invest_percent a t) ∧
    base_risk_percent b ≤ base_risk_percent a := by
  have hinv : tier_lookup b INVEST_TIERS ≤ tier_lookup a INVEST_TIERS := by
    rw [tier_lookup_INVEST, tier_lookup_INVEST]
    split_ifs <;> first | rfl | linarith | norm_num
  have hrisk : tier_lookup b RISK_TIERS ≤ tier_lookup a RISK_TIERS := by
    rw [tier_lookup_RISK, tier_lookup_RISK]
    split_ifs <;> first | rfl | linarith | norm_num
  refine ⟨fun t => ?_, hrisk⟩
  simp only [invest_percent]
  split_ifs
  · exact hinv
  · linarith

/-- C9 witness: at balances 0 and 30000 the deploy and risk percentages do
not increase. -/
theorem tier_monotone_witness :
    invest_percent 30000 1 ≤ invest_percent 0 1 ∧
    base_risk_percent 30000 ≤ base_risk_percent 0 :=
  ⟨(tier_monotone 0 30000 le_rfl (by norm_num)).1 1,
   (tier_monotone 0 30000 le_rfl (by norm_num)).2⟩

/-- C4: when `max_contracts = 0`, `calc` returns the zero plan: `contracts = 0`
and every derived monetary/percentage field is exactly 0, while the
diagnostics `max_by_invest`, `max_by_risk`, `inv_budget`, `rsk_budget` and
`cost_per_contract` keep their computed values. -/
theorem zero_plan_total (balance entry_price : ℚ) (trade_number : ℤ)
    (target_gain_pct fee_per_contract : ℚ)
    (h : max_contracts_of balance entry_price trade_number = 0) :
    («calc» balance entry_price trade_number target_gain_pct fee_per_contract).contracts = 0 ∧
    («calc» balance entry_price trade_number target_gain_pct fee_per_contract).tp_pct_effective = 0 ∧
    («calc» balance entry_price trade_number target_gain_pct fee_per_contract).pos_cost = 0 ∧
    («calc» balance entry_price trade_number target_gain_pct fee_per_contract).profit_tp_gross = 0 ∧
    («calc» balance entry_price trade_number target_gain_pct fee_per_contract).loss_sl = 0 ∧
    («calc» balance entry_price trade_number target_gain_pct fee_per_contract).total_fees_est = 0 ∧
    («calc» balance entry_price trade_number target_gain_pct fee_per_contract).net_profit_tp = 0 ∧
    («calc» balance entry_price trade_number target_gain_pct fee_per_contract).acct_gain_tp_gross = 0 ∧
    («calc» balance entry_price trade_number target_gain_pct fee_per_contract).acct_loss_sl_gross = 0 ∧
    («calc» balance entry_price trade_number target_gain_pct fee_per_contract).acct_gain_tp_net = 0 ∧
    («calc» balance entry_price trade_number target_gain_pct fee_per_contract).max_by_invest =
      max_by_invest_of balance entry_price trade_number ∧
    («calc» balance entry_price trade_number target_gain_pct fee_per_contract).max_by_risk =
      max_by_risk_of balance entry_price trade_number ∧
    («calc» balance entry_price trade_number target_gain_pct fee_per_contract).inv_budget =
      inv_budget_of balance trade_number ∧
    («calc» balance entry_price trade_number target_gain_pct fee_per_contract).rsk_budget =
      rsk_budget_of balance trade_number ∧
    («calc» balance entry_price trade_number target_gain_pct fee_per_contract).cost_per_contract =
      cost_per_contract_of entry_price := by
  have hz : «calc» balance entry_price trade_number target_gain_pct fee_per_contract =
      zeroPlan balance entry_price trade_number := by
    unfold «calc»
    rw [if_pos h]
  rw [hz]
  exact ⟨rfl, rfl, rfl, rfl, rfl, rfl, rfl, rfl, rfl, rfl, rfl, rfl, rfl, rfl, rfl⟩

/-- C4 witness: at balance 0 (so both budgets are 0) the zero plan is
returned with all monetary fields 0 and the diagnostics reported. -/
theorem zero_plan_total_witness :
    max_contracts_of 0 0.25 1 = 0 ∧
    («calc» 0 0.25 1 0.8 0.04).contracts = 0 ∧
    («calc» 0 0.25 1 0.8 0.04).net_profit_tp = 0 ∧
    («calc» 0 0.25 1 0.8 0.04).cost_per_contract = cost_per_contract_of 0.25 := by
  have h : max_contracts_of 0 0.25 1 = 0 := by
    norm_num [max_contracts_of, max_by_invest_of, max_by_risk_of,
      inv_budget_of, rsk_budget_of, invest_percent, base_risk_percent,
      rsk_pct_of, sl_pct_of, sl_price_of, cost_per_contract_of,
      loss_per_contract_of, tier_lookup, tier_match, INVEST_TIERS, RISK_TIERS,
      SL_TRADE1_BASE, List.find?]
  have happ := zero_plan_total 0 0.25 1 0.8 0.04 h
  exact ⟨h, happ.1, happ.2.2.2.2.2.2.1, happ.2.2.2.2.2.2.2.2.2.2.2.2.2.2⟩

/-- C10: in every return branch, the `contracts` field is either 0 or lies
in `1 .. min(max_by_invest, max_by_risk)` where `max_by_invest` and
`max_by_risk` are the diagnostic fields of the same record. -/
theorem sizing_invariant (balance entry_price : ℚ) (trade_number : ℤ)
    (target_gain_pct fee_per_contract : ℚ) :
    («calc» balance entry_price trade_number target_gain_pct fee_per_contract).contracts = 0 ∨
    (1 ≤ («calc» balance entry_price trade_number target_gain_pct fee_per_contract).contracts ∧
      («calc» balance entry_price trade_number target_gain_pct fee_per_contract).contracts ≤
        min («calc» balance entry_price trade_number target_gain_pct fee_per_contract).max_by_invest
            («calc» balance entry_price trade_number target_gain_pct fee_per_contract).max_by_risk) := by
  by_cases hm : max_contracts_of balance entry_price trade_number = 0
  · left
    have hz : «calc» balance entry_price trade_number target_gain_pct fee_per_contract =
        zeroPlan balance entry_price trade_number := by
      unfold «calc»
      rw [if_pos hm]
    rw [hz]
    rfl
  · cases hs : searchLoop balance entry_price trade_number target_gain_pct fee_per_contract with
    | none =>
      left
      have hz : «calc» balance entry_price trade_number target_gain_pct fee_per_contract =
          zeroPlan balance entry_price trade_number := by
        unfold «calc»
        rw [if_neg hm, hs]
      rw [hz]
      rfl
    | some pd =>
      obtain ⟨p, d⟩ := pd
      have hc : «calc» balance entry_price trade_number target_gain_pct fee_per_contract = p := by
        unfold «calc»
        rw [if_neg hm, hs]
      right
      obtain ⟨n0, hn0mem, hcn0, hmin, hbef⟩ :=
        searchFold_some _ _ (pairwise_contractRange _) p d hs
      obtain ⟨hcontracts, _, _, _, _, _, hmbi, hmbr, _, _, _⟩ := candidate_props hcn0
      rw [mem_contractRange] at hn0mem
      obtain ⟨h1, h2⟩ := hn0mem
      have hm' : max 0 (min (max_by_invest_of balance entry_price trade_number)
          (max_by_risk_of balance entry_price trade_number)) ≠ 0 := hm
      obtain ⟨hmaxeq, hmax1⟩ := max_zero_ne hm'
      unfold max_contracts_of at h2
      rw [hmaxeq] at h2
      constructor
      · rw [hc, hcontracts]
        exact h1
      · rw [hc, hcontracts, hmbi, hmbr]
        exact h2

/-- C6: for every returned plan with positive contract count `n`, the
estimated fees satisfy `total_fees_est = fee_per_contract * n * 2` and
`net_profit_tp = profit_tp_gross - total_fees_est`, and the TP-solving
formula used the same round-trip fee term. -/
theorem fee_accounting (balance entry_price : ℚ) (trade_number : ℤ)
    (target_gain_pct fee_per_contract : ℚ)
    (h : 0 < («calc» balance entry_price trade_number target_gain_pct fee_per_contract).contracts) :
    («calc» balance entry_price trade_number target_gain_pct fee_per_contract).total_fees_est =
      fee_per_contract *
        ((«calc» balance entry_price trade_number target_gain_pct fee_per_contract).contracts : ℚ) * 2 ∧
    («calc» balance entry_price trade_number target_gain_pct fee_per_contract).net_profit_tp =
      («calc» balance entry_price trade_number target_gain_pct fee_per_contract).profit_tp_gross -
        («calc» balance entry_price trade_number target_gain_pct fee_per_contract).total_fees_est ∧
    compute_tp_percent_for_target_account_gain balance entry_price
        («calc» balance entry_price trade_number target_gain_pct fee_per_contract).contracts
        target_gain_pct fee_per_contract =
      some ((balance * (target_gain_pct / 100) + fee_per_contract *
          ((«calc» balance entry_price trade_number target_gain_pct fee_per_contract).contracts : ℚ) * 2) /
        (entry_price * 100 *
          ((«calc» balance entry_price trade_number target_gain_pct fee_per_contract).contracts : ℚ)) * 100) := by
  obtain ⟨hm, p, d, hs, hc⟩ := calc_branch h
  obtain ⟨n0, hn0mem, hcn0, hmin, hbef⟩ :=
    searchFold_some _ _ (pairwise_contractRange _) p d hs
  obtain ⟨hcontracts, _, hfees, hnet, _, _, _, _, hb, he, hn⟩ := candidate_props hcn0
  rw [hc, hcontracts]
  exact ⟨hfees, hnet, compute_tp_eq target_gain_pct fee_per_contract hb he hn⟩

/-- C1: when `calc` returns a plan with positive contracts, that plan's
net-gain distance to the target is <= the distance of the candidate built
for every contract count `n` in `1 .. max_contracts`, and on an exact tie
the returned contract count is <= `n` (the ascending scan with strict-less
comparison keeps the first, smallest-`n`, minimiser). -/
theorem calc_closest_match (balance entry_price : ℚ) (trade_number : ℤ)
    (target_gain_pct fee_per_contract : ℚ)
    (h : 0 < («calc» balance entry_price trade_number target_gain_pct fee_per_contract).contracts)
    (n : ℤ) (hn1 : 1 ≤ n)
    (hn2 : n ≤ max_contracts_of balance entry_price trade_number) :
    ∃ p : Plan,
      candidate balance entry_price trade_number target_gain_pct fee_per_contract n =
        some (p, |p.acct_gain_tp_net - target_gain_pct|) ∧
      |(«calc» balance entry_price trade_number target_gain_pct fee_per_contract).acct_gain_tp_net -
          target_gain_pct| ≤ |p.acct_gain_tp_net - target_gain_pct| ∧
      (|p.acct_gain_tp_net - target_gain_pct| =
          |(«calc» balance entry_price trade_number target_gain_pct fee_per_contract).acct_gain_tp_net -
            target_gain_pct| →
        («calc» balance entry_price trade_number target_gain_pct fee_per_contract).contracts ≤ n) := by
  obtain ⟨hm, bp, bd, hs, hc⟩ := calc_branch h
  obtain ⟨n0, hn0mem, hcn0, hmin, hbef⟩ :=
    searchFold_some _ _ (pairwise_contractRange _) bp bd hs
  obtain ⟨hcontracts, hdiff, _, _, _, _, _, _, hb, he, _⟩ := candidate_props hcn0
  obtain ⟨p, hp⟩ := candidate_isSome trade_number hb he hn1
  refine ⟨p, hp, ?_, ?_⟩
  · rw [hc, ← hdiff]
    exact hmin n (mem_contractRange.mpr ⟨hn1, hn2⟩) p
      (|p.acct_gain_tp_net - target_gain_pct|) hp
  · intro heq
    rw [hc, hcontracts]
    by_contra hlt
    push_neg at hlt
    have hstrict := hbef n (mem_contractRange.mpr ⟨hn1, hn2⟩) hlt p
      (|p.acct_gain_tp_net - target_gain_pct|) hp
    rw [heq, hc, ← hdiff] at hstrict
    exact absurd hstrict (lt_irrefl bd)

/-- C3 (amended): for every returned plan with positive contracts,
`tp_price` is strictly greater than `entry_price`; when `entry_price` is a
whole number of cents, `tp_price` exceeds it by at least one tick (0.01). -/
theorem tp_above_entry_amended (balance entry_price : ℚ) (trade_number : ℤ)
    (target_gain_pct fee_per_contract : ℚ)
    (h : 0 < («calc» balance entry_price trade_number target_gain_pct fee_per_contract).contracts) :
    entry_price < («calc» balance entry_price trade_number target_gain_pct fee_per_contract).tp_price ∧
    (∀ k : ℤ, entry_price = (k : ℚ) / 100 →
      entry_price + MIN_TICK ≤
        («calc» balance entry_price trade_number target_gain_pct fee_per_contract).tp_price) := by
  obtain ⟨hm, p, d, hs, hc⟩ := calc_branch h
  obtain ⟨n0, hn0mem, hcn0, hmin, hbef⟩ :=
    searchFold_some _ _ (pairwise_contractRange _) p d hs
  obtain ⟨_, _, _, _, htp, hgrid, _, _, _, _, _⟩ := candidate_props hcn0
  obtain ⟨z, hz⟩ := hgrid
  rw [hc]
  refine ⟨htp, fun k hk => ?_⟩
  have hstep := grid_step hk hz htp
  have hmt : MIN_TICK = 1/100 := rfl
  linarith

/-- C3 counterexample: at balance 1000, entry 0.375, trade 1, target 0, fee
0, the returned plan has positive contracts and a take-profit price of
0.38, which is strictly above the entry price but only half a tick above
it — refuting "by at least one tick" for entries not aligned to the cent
grid. -/
theorem tp_one_tick_cex :
    0 < («calc» 1000 0.375 1 0 0).contracts ∧
    0.375 < («calc» 1000 0.375 1 0 0).tp_price ∧
    («calc» 1000 0.375 1 0 0).tp_price - 0.375 < MIN_TICK := by
  norm_num [«calc», searchLoop, contractRange, searchStep, candidate,
    compute_tp_percent_for_target_account_gain, max_contracts_of,
    max_by_invest_of, max_by_risk_of, inv_budget_of, rsk_budget_of,
    invest_percent, base_risk_percent, rsk_pct_of, sl_pct_of, sl_price_of,
    cost_per_contract_of, loss_per_contract_of, tier_lookup, tier_match,
    INVEST_TIERS, RISK_TIERS, SL_TRADE1_BASE, SL_TRADE2_BASE, SL_TRADE2_MIN,
    SL_TRADE2_MAX, TRADE2_TIGHTENING_RULES, trade2_dynamic_sl, round2,
    round_half_even, MIN_TICK, zeroPlan, List.range_succ, List.find?]

/-- C8 counterexample: at balance 467, entry 0.25, trade 1, target 0.80,
fee 0.04, the formula chain gives a raw TP percentage of 15.264 (not
152.64) and a TP price of 0.29 (not 0.63). -/
theorem regression_vector_cex :
    compute_tp_percent_for_target_account_gain 467 0.25 1 0.8 0.04 = some 15.264 ∧
    ¬ compute_tp_percent_for_target_account_gain 467 0.25 1 0.8 0.04 = some 152.64 ∧
    («calc» 467 0.25 1 0.8 0.04).tp_price = 0.29 ∧
    ¬ («calc» 467 0.25 1 0.8 0.04).tp_price = 0.63 := by
  refine ⟨?_, ?_, ?_, ?_⟩ <;>
    norm_num [«calc», searchLoop, contractRange, searchStep, candidate,
      compute_tp_percent_for_target_account_gain, max_contracts_of,
      max_by_invest_of, max_by_risk_of, inv_budget_of, rsk_budget_of,
      invest_percent, base_risk_percent, rsk_pct_of, sl_pct_of, sl_price_of,
      cost_per_contract_of, loss_per_contract_of, tier_lookup, tier_match,
      INVEST_TIERS, RISK_TIERS, SL_TRADE1_BASE, round2, round_half_even,
      MIN_TICK, zeroPlan, List.range_succ, List.find?]

/-- C8 (amended): the regression vector with the values the code actually
produces: deploy budget 163.45, cost per contract 25.00, max-by-deploy 6,
sl price 0.175, loss per contract 7.50, risk budget 9.34, max-by-risk 1,
max contracts 1; for n = 1: fees 0.08, gross profit goal
3.736 + 0.08 = 3.816, raw TP percentage 15.264 and TP price 0.29. -/
theorem regression_vector_amended :
    inv_budget_of 467 1 = 163.45 ∧
    cost_per_contract_of 0.25 = 25 ∧
    max_by_invest_of 467 0.25 1 = 6 ∧
    sl_price_of 0.25 1 = 0.175 ∧
    loss_per_contract_of 0.25 1 = 7.5 ∧
    rsk_budget_of 467 1 = 9.34 ∧
    max_by_risk_of 467 0.25 1 = 1 ∧
    max_contracts_of 467 0.25 1 = 1 ∧
    («calc» 467 0.25 1 0.8 0.04).total_fees_est = 0.08 ∧
    (467 * (0.8 / 100) + 0.04 * (1 : ℚ) * 2 = 3.736 + 0.08) ∧
    compute_tp_percent_for_target_account_gain 467 0.25 1 0.8 0.04 =
      some ((3.736 + 0.08) / 25 * 100) ∧
    (3.736 + 0.08) / 25 * 100 = (15.264 : ℚ) ∧
    («calc» 467 0.25 1 0.8 0.04).tp_price = 0.29 := by
  refine ⟨?_, ?_, ?_, ?_, ?_, ?_, ?_, ?_, ?_, ?_, ?_, ?_, ?_⟩ <;>
    norm_num [«calc», searchLoop, contractRange, searchStep, candidate,
      compute_tp_percent_for_target_account_gain, max_contracts_of,
      max_by_invest_of, max_by_risk_of, inv_budget_of, rsk_budget_of,
      invest_percent, base_risk_percent, rsk_pct_of, sl_pct_of, sl_price_of,
      cost_per_contract_of, loss_per_contract_of, tier_lookup, tier_match,
      INVEST_TIERS, RISK_TIERS, SL_TRADE1_BASE, round2, round_half_even,
      MIN_TICK, zeroPlan, List.range_succ, List.find?]

/-- C1 witness: at balance 467, entry 0.25, trade 1, target 0.80, fee 0.04
the returned plan has positive contracts, and the closest-match property
holds at contract count 1. -/
theorem calc_closest_match_witness :
    0 < («calc» 467 0.25 1 0.8 0.04).contracts ∧
    ∃ p : Plan,
      candidate 467 0.25 1 0.8 0.04 1 = some (p, |p.acct_gain_tp_net - 0.8|) ∧
      |(«calc» 467 0.25 1 0.8 0.04).acct_gain_tp_net - 0.8| ≤
        |p.acct_gain_tp_net - 0.8| ∧
      (|p.acct_gain_tp_net - 0.8| =
          |(«calc» 467 0.25 1 0.8 0.04).acct_gain_tp_net - 0.8| →
        («calc» 467 0.25 1 0.8 0.04).contracts ≤ 1) := by
  have h : 0 < («calc» 467 0.25 1 0.8 0.04).contracts := by
    norm_num [«calc», searchLoop, contractRange, searchStep, candidate,
      compute_tp_percent_for_target_account_gain, max_contracts_of,
      max_by_invest_of, max_by_risk_of, inv_budget_of, rsk_budget_of,
      invest_percent, base_risk_percent, rsk_pct_of, sl_pct_of, sl_price_of,
      cost_per_contract_of, loss_per_contract_of, tier_lookup, tier_match,
      INVEST_TIERS, RISK_TIERS, SL_TRADE1_BASE, round2, round_half_even,
      MIN_TICK, zeroPlan, List.range_succ, List.find?]
  have hmax : (1 : ℤ) ≤ max_contracts_of 467 0.25 1 := by
    norm_num [max_contracts_of, max_by_invest_of, max_by_risk_of,
      inv_budget_of, rsk_budget_of, invest_percent, base_risk_percent,
      rsk_pct_of, sl_pct_of, sl_price_of, cost_per_contract_of,
      loss_per_contract_of, tier_lookup, tier_match, INVEST_TIERS, RISK_TIERS,
      SL_TRADE1_BASE, List.find?]
  exact ⟨h, calc_closest_match 467 0.25 1 0.8 0.04 h 1 le_rfl hmax⟩

/-- C6 witness: at balance 467, entry 0.20, trade 2, target 0.40, fee 0.04
the returned plan has positive contracts and satisfies the round-trip fee
equations. -/
theorem fee_accounting_witness :
    0 < («calc» 467 0.2 2 0.4 0.04).contracts ∧
    («calc» 467 0.2 2 0.4 0.04).total_fees_est =
      0.04 * ((«calc» 467 0.2 2 0.4 0.04).contracts : ℚ) * 2 ∧
    («calc» 467 0.2 2 0.4 0.04).net_profit_tp =
      («calc» 467 0.2 2 0.4 0.04).profit_tp_gross -
        («calc» 467 0.2 2 0.4 0.04).total_fees_est := by
  have h : 0 < («calc» 467 0.2 2 0.4 0.04).contracts := by
    norm_num [«calc», searchLoop, contractRange, searchStep, candidate,
      compute_tp_percent_for_target_account_gain, max_contracts_of,
      max_by_invest_of, max_by_risk_of, inv_budget_of, rsk_budget_of,
      invest_percent, base_risk_percent, rsk_pct_of, sl_pct_of, sl_price_of,
      cost_per_contract_of, loss_per_contract_of, tier_lookup, tier_match,
      INVEST_TIERS, RISK_TIERS, SL_TRADE1_BASE, SL_TRADE2_BASE, SL_TRADE2_MIN,
      SL_TRADE2_MAX, TRADE2_TIGHTENING_RULES, trade2_dynamic_sl, round2,
      round_half_even, MIN_TICK, zeroPlan, List.range_succ, List.find?]
  have happ := fee_accounting 467 0.2 2 0.4 0.04 h
  exact ⟨h, happ.1, happ.2.1⟩

/-- C3 witness (for the amended theorem): at balance 467, entry 0.25 (a
whole number of cents, `25/100`), trade 1, target 0.80, fee 0.04 the
returned TP price is strictly above the entry and at least one tick
above it. -/
theorem tp_above_entry_amended_witness :
    0 < («calc» 467 0.25 1 0.8 0.04).contracts ∧
    (0.25 : ℚ) < («calc» 467 0.25 1 0.8 0.04).tp_price ∧
    (0.25 : ℚ) + MIN_TICK ≤ («calc» 467 0.25 1 0.8 0.04).tp_price := by
  have h : 0 < («calc» 467 0.25 1 0.8 0.04).contracts := by
    norm_num [«calc», searchLoop, contractRange, searchStep, candidate,
      compute_tp_percent_for_target_account_gain, max_contracts_of,
      max_by_invest_of, max_by_risk_of, inv_budget_of, rsk_budget_of,
      invest_percent, base_risk_percent, rsk_pct_of, sl_pct_of, sl_price_of,
      cost_per_contract_of, loss_per_contract_of, tier_lookup, tier_match,
      INVEST_TIERS, RISK_TIERS, SL_TRADE1_BASE, round2, round_half_even,
      MIN_TICK, zeroPlan, List.range_succ, List.find?]
  have happ := tp_above_entry_amended 467 0.25 1 0.8 0.04 h
  exact ⟨h, happ.1, happ.2 25 (by norm_num)⟩
